import Mathlib

/-!
Shallow embedding of `src/internal/policies/mount/adsys_mount/src/main.rs`.

The program reads a mounts file, dispatches one asynchronous gio mount per
entry, answers credential prompts through `ask_password_cb`, collects one
completion message per attempt through a glib channel, and computes a final
verdict from the collected failures.
-/

namespace AdsysMount

/-- A classified backend error (`glib::Error`), reduced to the only
classification the program ever inspects: whether it matches
`gio::IOErrorEnum::AlreadyMounted` (main.rs line 119). -/
structure GError where
  isAlreadyMounted : Bool
deriving DecidableEq

/-- `enum MountStatus` (main.rs lines 41-46): status returned by a mount
attempt, also reused as the per-operation negotiation marker. -/
inductive MountStatus
  | Done
  | Asked
  | Error (e : GError)
deriving DecidableEq

/-- `struct Msg` (main.rs lines 34-38): the message passed in the glib
channel. -/
structure Msg where
  path : String
  status : MountStatus
deriving DecidableEq

/-- `struct MountEntry` (main.rs lines 28-32): a mount point read from the
mounts file. -/
structure MountEntry where
  mount_path : String
  is_anonymous : Bool
deriving DecidableEq

/-- Modelled from the spec: the error type of the `error.rs` module, which is
not under src/. main.rs uses exactly two variants, `ParseError` (line 62) and
`MountError` (line 127), and the spec's process exit contract only
distinguishes the source-read failure from the aggregate mount failure. -/
inductive AdsysMountError
  | ParseError
  | MountError
deriving DecidableEq

/-- Splitting a character sequence on the newline separator: the fields
between the separators, in order (one more field than separators). -/
def splitChar : List Char → List (List Char)
  | [] => [[]]
  | c :: cs =>
    if c = '\n' then [] :: splitChar cs
    else
      match splitChar cs with
      | [] => [[c]]
      | f :: rest => (c :: f) :: rest

/-- Rust `str::split_terminator('\n')` (main.rs line 141): split on the
separator, the final empty piece produced by a trailing separator being
omitted. -/
def splitTerminator (s : String) : List String :=
  let l := (splitChar s.data).map (fun cs => String.mk cs)
  if l.getLast? = some "" then l.dropLast else l

/-- Rust `str::strip_prefix` on character sequences: the remainder of the
second sequence after the first, when the first leads it. -/
def dropMarker : List Char → List Char → Option (List Char)
  | [], cs => some cs
  | _ :: _, [] => none
  | m :: ms, c :: cs => if c = m then dropMarker ms cs else none

/-- `p.strip_prefix("[anonymous]")` (main.rs line 146). -/
def stripAnonMarker (p : String) : Option String :=
  (dropMarker "[anonymous]".data p.data).map (fun cs => String.mk cs)

/-- The entry pushed for one non-empty line (main.rs lines 146-155). -/
def entryOfLine (p : String) : MountEntry :=
  match stripAnonMarker p with
  | some s => { mount_path := s, is_anonymous := true }
  | none => { mount_path := p, is_anonymous := false }

/-- The parsing loop of `parse_entries` (main.rs lines 141-156): skip empty
lines, push one entry per other line, in order. -/
def parseLines : List String → List MountEntry
  | [] => []
  | p :: rest => if p = "" then parseLines rest else entryOfLine p :: parseLines rest

/-- `parse_entries` (main.rs lines 133-159) restricted to its pure part: the
file content is already read (the `fs::read_to_string` failure is modelled at
the `adsys_main` level). -/
def parse_entries (content : String) : List MountEntry :=
  parseLines (splitTerminator content)

/-- The failure-recording step of the receiver closure (main.rs lines 89-96):
a `MountStatus::Error` message is pushed onto the shared failure vector, any
other status is ignored. -/
def recordMsg (failures : List Msg) (x : Msg) : List Msg :=
  match x.status with
  | MountStatus.Error _ => failures ++ [x]
  | _ => failures

/-- The failures accumulated after delivering a list of messages, starting
from the empty vector created at main.rs line 81. -/
def failuresOf (msgs : List Msg) : List Msg :=
  List.foldl recordMsg [] msgs

/-- The final-verdict scan (main.rs lines 111-124): `had_error` becomes true
when some recorded error does not match `AlreadyMounted`. -/
def had_error (errors : List Msg) : Bool :=
  List.foldl (fun acc err =>
    match err.status with
    | MountStatus.Error e => if !e.isAlreadyMounted then true else acc
    | _ => acc) false errors

/-- The tail of `main` (main.rs lines 126-129): return `MountError` when the
scan found a fatal failure, success otherwise. -/
def finalize (errors : List Msg) : Except AdsysMountError Unit :=
  if had_error errors then Except.error AdsysMountError.MountError else Except.ok ()

/-- The verdict of a run as a function of the delivered messages. -/
def runVerdict (msgs : List Msg) : Except AdsysMountError Unit :=
  finalize (failuresOf msgs)

/-- The mutable state owned by the receiver closure: the `mounts_left`
counter (main.rs line 71) and the shared failure vector (main.rs line 81). -/
structure LoopState where
  mounts_left : Nat
  failures : List Msg
deriving DecidableEq

/-- The glib main loop together with the attached receiver closure (main.rs
lines 88-108): each delivered message records a failure if any, decrements
`mounts_left`, and the loop quits exactly when the counter reaches zero.
`g_loop.run()` returns only when `quit` is called from the closure, so
exhausting the pending deliveries while the counter is still positive —
including the case of zero deliveries — means the loop blocks forever,
modelled as `none`. On termination the final state and the number of
consumed messages are returned. -/
def runLoop : LoopState → List Msg → Option (LoopState × Nat)
  | _, [] => none
  | s, x :: rest =>
    if s.mounts_left - 1 = 0 then
      some ({ mounts_left := s.mounts_left - 1, failures := recordMsg s.failures x }, 1)
    else
      match runLoop { mounts_left := s.mounts_left - 1, failures := recordMsg s.failures x } rest with
      | some (t, k) => some (t, k + 1)
      | none => none

/-- One delivery as a state update of the aggregate (the body of the receiver
closure, main.rs lines 89-97): record the failure and decrement the
outstanding counter. -/
def record (s : LoopState) (x : Msg) : LoopState :=
  { mounts_left := s.mounts_left - 1, failures := recordMsg s.failures x }

/-- `mount_handled_cb` (main.rs lines 177-187): the message built from the
backend's completion result and sent on the channel. -/
def mount_handled_cb (mount_path : String) (r : Except GError Unit) : Msg :=
  match r with
  | Except.ok _ => { path := mount_path, status := MountStatus.Done }
  | Except.error e => { path := mount_path, status := MountStatus.Error e }

/-- `gio::MountOperationResult` as used by the program: `Handled` or
`Aborted` (main.rs lines 217, 222, 228, 231). -/
inductive MountOperationResult
  | Handled
  | Aborted
deriving DecidableEq

/-- The only flag of `gio::AskPasswordFlags` the callback inspects:
`ANONYMOUS_SUPPORTED` (main.rs line 211). -/
structure AskPasswordFlags where
  anonymousSupported : Bool
deriving DecidableEq

/-- The observable state of the `gio::MountOperation` handle as seen by
`ask_password_cb`: the anonymous property set at dispatch (main.rs line 171)
and the typed data attached under the "state" key (main.rs lines 213, 221). -/
structure MountOpState where
  is_anonymous : Bool
  data : Option MountStatus
deriving DecidableEq

/-- The effect of one `ask_password_cb` invocation: the data attached to the
operation handle afterwards, and the sequence of replies sent to the
backend. -/
structure CbResult where
  newData : Option MountStatus
  replies : List MountOperationResult
deriving DecidableEq

/-- `ask_password_cb` (main.rs lines 204-233). When the operation is
anonymous and the backend supports anonymous access: attached data equal to
`Asked` replies `Aborted`; absent data attaches `Asked` and replies
`Handled`; attached data of any other shape falls through the inner
`if let` silently, sending no reply. Otherwise the ambient Kerberos ticket
(`KRB5CCNAME`) decides between `Handled` and `Aborted`. -/
def ask_password_cb (op : MountOpState) (flags : AskPasswordFlags)
    (krbTicketPresent : Bool) : CbResult :=
  if op.is_anonymous && flags.anonymousSupported then
    match op.data with
    | some d =>
      match d with
      | MountStatus.Asked => { newData := op.data, replies := [MountOperationResult.Aborted] }
      | _ => { newData := op.data, replies := [] }
    | none => { newData := some MountStatus.Asked, replies := [MountOperationResult.Handled] }
  else if krbTicketPresent then
    { newData := op.data, replies := [MountOperationResult.Handled] }
  else
    { newData := op.data, replies := [MountOperationResult.Aborted] }

/-- The error of `fs::read_to_string` (main.rs line 139). -/
structure ReadError where
  message : String
deriving DecidableEq

/-- What a run leaves observable: the entries dispatched via `handle_mount`,
the value returned by `main`, and the failures recorded by the receiver. -/
structure RunTrace where
  dispatched : List MountEntry
  result : Except AdsysMountError Unit
  recorded : List Msg

/-- `main` (main.rs lines 48-130), parameterised by the outcome of the file
read and by the backend's completion result per entry: a read failure
returns `ParseError` before any dispatch; otherwise every parsed entry is
dispatched, one completion message per entry is delivered, and the loop runs
until `mounts_left` reaches zero. `none` models a run whose main loop never
terminates. -/
def adsys_main (readResult : Except ReadError String)
    (backend : MountEntry → Except GError Unit) : Option RunTrace :=
  match readResult with
  | Except.error _ =>
    some { dispatched := [], result := Except.error AdsysMountError.ParseError, recorded := [] }
  | Except.ok content =>
    let entries := parse_entries content
    let msgs := entries.map (fun e => mount_handled_cb e.mount_path (backend e))
    match runLoop { mounts_left := entries.length, failures := [] } msgs with
    | some (s, _) =>
      some { dispatched := entries, result := finalize s.failures, recorded := s.failures }
    | none => none

/-- A delivered message that makes the run fail: an error not classified
`AlreadyMounted`. -/
def isBadMsg (x : Msg) : Bool :=
  match x.status with
  | MountStatus.Error e => !e.isAlreadyMounted
  | _ => false

/-- A delivered message carrying a failure status. -/
def isFailureMsg (x : Msg) : Bool :=
  match x.status with
  | MountStatus.Error _ => true
  | _ => false

theorem had_error_foldl (l : List Msg) (b : Bool) :
    List.foldl (fun acc err =>
      match err.status with
      | MountStatus.Error e => if !e.isAlreadyMounted then true else acc
      | _ => acc) b l = (b || l.any isBadMsg) := by
  induction l generalizing b with
  | nil => simp
  | cons x xs ih =>
    simp only [List.foldl, List.any_cons]
    rw [ih]
    cases hx : x.status with
    | Error e =>
      cases he : e.isAlreadyMounted <;>
        simp [isBadMsg, hx, he, Bool.or_assoc, Bool.or_comm]
    | Done => simp [isBadMsg, hx]
    | Asked => simp [isBadMsg, hx]

theorem had_error_eq_any (l : List Msg) : had_error l = l.any isBadMsg := by
  unfold had_error
  rw [had_error_foldl l false]
  exact Bool.false_or _

theorem foldl_recordMsg (l : List Msg) (acc : List Msg) :
    List.foldl recordMsg acc l = acc ++ l.filter isFailureMsg := by
  induction l generalizing acc with
  | nil => simp
  | cons x xs ih =>
    simp only [List.foldl]
    rw [ih]
    cases hx : x.status <;>
      simp [recordMsg, isFailureMsg, hx, List.filter_cons]

theorem failuresOf_eq (msgs : List Msg) : failuresOf msgs = msgs.filter isFailureMsg := by
  simpa using foldl_recordMsg msgs []

theorem any_filter_isFailure (l : List Msg) :
    (l.filter isFailureMsg).any isBadMsg = l.any isBadMsg := by
  induction l with
  | nil => rfl
  | cons x xs ih =>
    cases hx : x.status <;>
      simp [List.filter_cons, isFailureMsg, isBadMsg, hx, ih]

theorem runVerdict_eq (msgs : List Msg) :
    runVerdict msgs =
      if msgs.any isBadMsg then Except.error AdsysMountError.MountError else Except.ok () := by
  unfold runVerdict finalize
  rw [failuresOf_eq, had_error_eq_any, any_filter_isFailure]

theorem isBadMsg_iff (x : Msg) :
    isBadMsg x = true ↔ ∃ e, x.status = MountStatus.Error e ∧ e.isAlreadyMounted = false := by
  cases hx : x.status with
  | Error e => cases he : e.isAlreadyMounted <;> simp [isBadMsg, hx, he]
  | Done => simp [isBadMsg, hx]
  | Asked => simp [isBadMsg, hx]

theorem any_isBadMsg_iff (msgs : List Msg) :
    msgs.any isBadMsg = true ↔
      ∃ x ∈ msgs, ∃ e, x.status = MountStatus.Error e ∧ e.isAlreadyMounted = false := by
  rw [List.any_eq_true]
  constructor
  · rintro ⟨x, hmem, hbad⟩
    exact ⟨x, hmem, (isBadMsg_iff x).mp hbad⟩
  · rintro ⟨x, hmem, hbad⟩
    exact ⟨x, hmem, (isBadMsg_iff x).mpr hbad⟩

theorem perm_any_eq (p : Msg → Bool) {l₁ l₂ : List Msg} (h : l₁.Perm l₂) :
    l₁.any p = l₂.any p := by
  cases hb : l₂.any p with
  | false =>
    rw [List.any_eq_false] at hb ⊢
    intro x hx
    exact hb x (h.mem_iff.mp hx)
  | true =>
    rw [List.any_eq_true] at hb ⊢
    obtain ⟨x, hx, hpx⟩ := hb
    exact ⟨x, h.mem_iff.mpr hx, hpx⟩

theorem dropMarker_eq (ms : List Char) :
    ∀ cs : List Char,
      dropMarker ms cs = if ms.isPrefixOf cs then some (cs.drop ms.length) else none := by
  induction ms with
  | nil => intro cs; simp [dropMarker, List.isPrefixOf]
  | cons m ms ih =>
    intro cs
    cases cs with
    | nil => simp [dropMarker, List.isPrefixOf]
    | cons c cs =>
      by_cases h : c = m
      · simp [dropMarker, List.isPrefixOf, h, ih cs]
      · have h2 : ¬ m = c := fun hh => h hh.symm
        simp [dropMarker, List.isPrefixOf, h, h2]

theorem entryOfLine_eq (p : String) :
    entryOfLine p
      = if "[anonymous]".data.isPrefixOf p.data
          then { mount_path := String.mk (p.data.drop "[anonymous]".data.length),
                 is_anonymous := true }
          else { mount_path := p, is_anonymous := false } := by
  unfold entryOfLine stripAnonMarker
  rw [dropMarker_eq]
  by_cases hp : "[anonymous]".data.isPrefixOf p.data <;> simp [hp]

theorem parseLines_eq (lines : List String) :
    parseLines lines
      = (lines.filter (fun p => p ≠ "")).map
          (fun p => if "[anonymous]".data.isPrefixOf p.data
            then { mount_path := String.mk (p.data.drop "[anonymous]".data.length),
                   is_anonymous := true }
            else { mount_path := p, is_anonymous := false }) := by
  induction lines with
  | nil => rfl
  | cons p rest ih =>
    by_cases h : p = ""
    · simp [parseLines, h, ih, List.filter_cons]
    · simp only [parseLines, if_neg h, List.filter_cons]
      rw [ih, entryOfLine_eq]
      simp [h]

theorem runLoop_cons (s : LoopState) (x : Msg) (rest : List Msg) :
    runLoop s (x :: rest) =
      if s.mounts_left - 1 = 0 then
        some ({ mounts_left := s.mounts_left - 1, failures := recordMsg s.failures x }, 1)
      else
        match runLoop { mounts_left := s.mounts_left - 1, failures := recordMsg s.failures x } rest with
        | some (t, k) => some (t, k + 1)
        | none => none := rfl

theorem runLoop_exact (msgs : List Msg) :
    ∀ (extra fs : List Msg), 1 ≤ msgs.length →
      runLoop { mounts_left := msgs.length, failures := fs } (msgs ++ extra)
        = some ({ mounts_left := 0, failures := List.foldl recordMsg fs msgs }, msgs.length) := by
  induction msgs with
  | nil => intro extra fs h; simp at h
  | cons x rest ih =>
    intro extra fs _
    rw [List.cons_append, runLoop_cons]
    simp only [List.length_cons, Nat.add_sub_cancel]
    cases rest with
    | nil => simp [List.foldl]
    | cons r rs =>
      have hne : (r :: rs).length ≠ 0 := by simp
      rw [if_neg hne, ih extra (recordMsg fs x) (by simp)]
      simp [List.foldl]

/-- C1: final-verdict classification — the run's result is the `MountError`
failure exactly when some delivered message carries an error not classified
`AlreadyMounted`, and is success exactly otherwise (in particular when there
are no failures, or every failure is `AlreadyMounted`). -/
theorem final_verdict_classification (msgs : List Msg) :
    (runVerdict msgs = Except.error AdsysMountError.MountError ↔
      ∃ x ∈ msgs, ∃ e, x.status = MountStatus.Error e ∧ e.isAlreadyMounted = false)
    ∧ (runVerdict msgs = Except.ok () ↔
      ¬ ∃ x ∈ msgs, ∃ e, x.status = MountStatus.Error e ∧ e.isAlreadyMounted = false) := by
  rw [runVerdict_eq]
  cases hb : msgs.any isBadMsg with
  | true =>
    rw [← any_isBadMsg_iff]
    simp [hb]
  | false =>
    rw [← any_isBadMsg_iff]
    simp [hb]

/-- C4: the final verdict is deterministic in the multiset of delivered
outcomes — any reordering of the delivered messages yields the same
success/failure result. -/
theorem verdict_perm_invariant (l₁ l₂ : List Msg) (h : l₁.Perm l₂) :
    runVerdict l₁ = runVerdict l₂ := by
  rw [runVerdict_eq, runVerdict_eq, perm_any_eq isBadMsg h]

/-- C4 witness: swapping two concrete deliveries leaves the verdict
unchanged. -/
theorem verdict_perm_invariant_witness :
    runVerdict
        [Msg.mk "smb://host/share1" MountStatus.Done,
         Msg.mk "smb://host/share2" (MountStatus.Error (GError.mk false))]
      = runVerdict
        [Msg.mk "smb://host/share2" (MountStatus.Error (GError.mk false)),
         Msg.mk "smb://host/share1" MountStatus.Done] :=
  verdict_perm_invariant _ _
    (List.Perm.swap (Msg.mk "smb://host/share2" (MountStatus.Error (GError.mk false)))
      (Msg.mk "smb://host/share1" MountStatus.Done) [])

/-- C5 (amended to N ≥ 1): for a run dispatching N ≥ 1 requests with exactly
one delivery per request, the processing loop terminates exactly on the N-th
delivery and not before, leaving outstanding count 0 and the recorded
failures, and consumes no further events after that point. -/
theorem loop_terminates_after_N (msgs extra : List Msg) (n : Nat)
    (hn : msgs.length = n) (h1 : 1 ≤ n) :
    runLoop { mounts_left := n, failures := [] } (msgs ++ extra)
      = some ({ mounts_left := 0, failures := failuresOf msgs }, n) := by
  subst hn
  exact runLoop_exact msgs extra [] h1

/-- C5 witness: one dispatched request, one delivery, one further pending
event — the loop stops after consuming exactly the first delivery. -/
theorem loop_terminates_after_N_witness :
    runLoop { mounts_left := 1, failures := [] }
        ([Msg.mk "smb://host/share1" MountStatus.Done] ++ [Msg.mk "smb://host/share2" MountStatus.Done])
      = some ({ mounts_left := 0,
                failures := failuresOf [Msg.mk "smb://host/share1" MountStatus.Done] }, 1) :=
  loop_terminates_after_N [Msg.mk "smb://host/share1" MountStatus.Done]
    [Msg.mk "smb://host/share2" MountStatus.Done] 1 rfl (by decide)

/-- C5 counterexample: with N = 0 dispatched requests and, per the backend
contract, zero deliveries, `quit` is never called from the receiver closure,
so `g_loop.run()` blocks forever (modelled as `none`): the loop does not
terminate, contradicting the claim at N = 0. The same holds for the whole
run on an empty mounts file. -/
theorem loop_zero_requests_never_terminates :
    runLoop { mounts_left := 0, failures := [] } [] = none
    ∧ adsys_main (Except.ok "") (fun _ => Except.ok ()) = none := by
  constructor
  · rfl
  · rfl

/-- C9 counterexample: delivering the same failure outcome a second time
decrements the outstanding counter again and appends the failure again, so
the aggregate state after the duplicate differs from the state after the
first delivery. -/
theorem record_not_idempotent :
    record (record { mounts_left := 2, failures := [] }
        (Msg.mk "smb://host/share2" (MountStatus.Error (GError.mk false))))
        (Msg.mk "smb://host/share2" (MountStatus.Error (GError.mk false)))
      ≠ record { mounts_left := 2, failures := [] }
        (Msg.mk "smb://host/share2" (MountStatus.Error (GError.mk false))) := by
  decide

/-- C9 (amended): `record` is not idempotent on the aggregate state — a
duplicate delivery of the same outcome decrements the outstanding counter a
second time and, for a failure, appends it to the failure list a second
time — but the final verdict computed from the failure list is unchanged by
the duplicate delivery. -/
theorem duplicate_record_effect (s : LoopState) (x : Msg) :
    (record (record s x) x).mounts_left = s.mounts_left - 2
    ∧ finalize (record (record s x) x).failures = finalize (record s x).failures := by
  constructor
  · simp [record, Nat.sub_sub]
  · show finalize (recordMsg (recordMsg s.failures x) x) = finalize (recordMsg s.failures x)
    cases hx : x.status with
    | Error e =>
      unfold finalize
      rw [had_error_eq_any, had_error_eq_any]
      simp [recordMsg, hx, List.any_append, Bool.or_assoc]
    | Done => simp [recordMsg, hx]
    | Asked => simp [recordMsg, hx]

/-- C2: anonymous negotiation happens exactly once per attempt — on an
anonymous operation with a prompt where the backend supports anonymous
access, an attempt with no attached negotiation state replies `Handled`
(proceed anonymously) and attaches the `Asked` marker, while an attempt
whose attached state is already `Asked` replies `Aborted`; in both cases the
ambient Kerberos ticket is never consulted (the result is the same for any
value of it). -/
theorem anonymous_asked_once (op : MountOpState) (flags : AskPasswordFlags) (krb : Bool)
    (hAnon : op.is_anonymous = true) (hSup : flags.anonymousSupported = true) :
    (op.data = none →
      ask_password_cb op flags krb
        = { newData := some MountStatus.Asked, replies := [MountOperationResult.Handled] })
    ∧ (op.data = some MountStatus.Asked →
      ask_password_cb op flags krb
        = { newData := some MountStatus.Asked, replies := [MountOperationResult.Aborted] }) := by
  refine ⟨fun h => ?_, fun h => ?_⟩ <;> simp [ask_password_cb, hAnon, hSup, h]

/-- C2 witness: the two prompts of a concrete anonymous attempt. -/
theorem anonymous_asked_once_witness :
    ask_password_cb (MountOpState.mk true none) (AskPasswordFlags.mk true) false
        = { newData := some MountStatus.Asked, replies := [MountOperationResult.Handled] }
    ∧ ask_password_cb (MountOpState.mk true (some MountStatus.Asked)) (AskPasswordFlags.mk true) false
        = { newData := some MountStatus.Asked, replies := [MountOperationResult.Aborted] } :=
  ⟨(anonymous_asked_once (MountOpState.mk true none) (AskPasswordFlags.mk true) false rfl rfl).1 rfl,
   (anonymous_asked_once (MountOpState.mk true (some MountStatus.Asked)) (AskPasswordFlags.mk true) false
      rfl rfl).2 rfl⟩

/-- C3: ambient-credential fallback — on a non-anonymous operation, or a
prompt where the backend does not support anonymous access, the callback
replies `Handled` when the Kerberos ticket is present and `Aborted` when it
is absent, leaving the attached state untouched and independent of it. -/
theorem ambient_fallback (op : MountOpState) (flags : AskPasswordFlags) (krb : Bool)
    (h : op.is_anonymous = false ∨ flags.anonymousSupported = false) :
    ask_password_cb op flags krb
      = { newData := op.data,
          replies := [if krb then MountOperationResult.Handled else MountOperationResult.Aborted] } := by
  have hcond : (op.is_anonymous && flags.anonymousSupported) = false := by
    rcases h with h | h <;> simp [h]
  cases krb <;> simp [ask_password_cb, hcond]

/-- C3 witness: a non-anonymous attempt with a ticket proceeds, and one
without a ticket aborts. -/
theorem ambient_fallback_witness :
    ask_password_cb (MountOpState.mk false none) (AskPasswordFlags.mk true) true
        = { newData := none, replies := [MountOperationResult.Handled] }
    ∧ ask_password_cb (MountOpState.mk false none) (AskPasswordFlags.mk true) false
        = { newData := none, replies := [MountOperationResult.Aborted] } := by
  constructor
  · have h := ambient_fallback (MountOpState.mk false none) (AskPasswordFlags.mk true) true (Or.inl rfl)
    simpa using h
  · have h := ambient_fallback (MountOpState.mk false none) (AskPasswordFlags.mk true) false (Or.inl rfl)
    simpa using h

/-- C6: the callback replies exactly once per invocation on every reachable
path — the attached state, if present, can only be the `Asked` marker (the
only value the callback ever attaches, as the second conjunct shows the
reachable states are preserved), and under that reachability hypothesis the
reply list always has length one. -/
theorem reply_exactly_once (op : MountOpState) (flags : AskPasswordFlags) (krb : Bool)
    (h : op.data = none ∨ op.data = some MountStatus.Asked) :
    (ask_password_cb op flags krb).replies.length = 1
    ∧ ((ask_password_cb op flags krb).newData = none
        ∨ (ask_password_cb op flags krb).newData = some MountStatus.Asked) := by
  rcases h with h | h <;>
    cases ha : op.is_anonymous <;> cases hs : flags.anonymousSupported <;> cases krb <;>
      simp [ask_password_cb, ha, hs, h]

/-- C6 witness: the reattached-state prompt sends exactly one reply. -/
theorem reply_exactly_once_witness :
    (ask_password_cb (MountOpState.mk true (some MountStatus.Asked))
        (AskPasswordFlags.mk true) false).replies.length = 1 :=
  (reply_exactly_once (MountOpState.mk true (some MountStatus.Asked))
    (AskPasswordFlags.mk true) false (Or.inr rfl)).1

/-- C7: entry parsing — for every input text, `parse_entries` yields one
entry per non-empty line in line order: a line starting with the
"[anonymous]" marker gives the line with the marker stripped and
`is_anonymous = true`, any other non-empty line gives the line itself with
`is_anonymous = false`, and blank lines give no entry. -/
theorem parse_entries_characterization (content : String) :
    parse_entries content
      = ((splitTerminator content).filter (fun p => p ≠ "")).map
          (fun p => if "[anonymous]".data.isPrefixOf p.data
            then { mount_path := String.mk (p.data.drop "[anonymous]".data.length),
                   is_anonymous := true }
            else { mount_path := p, is_anonymous := false }) :=
  parseLines_eq (splitTerminator content)

/-- C8: atomic abort on unreadable source — when the read of the mounts file
fails, the run returns the `ParseError` failure with no entry dispatched and
no outcome recorded, whatever the backend would have answered. -/
theorem source_error_aborts (e : ReadError) (backend : MountEntry → Except GError Unit) :
    adsys_main (Except.error e) backend
      = some { dispatched := [], result := Except.error AdsysMountError.ParseError,
               recorded := [] } := rfl

/-- C10: the resolution handler only ever builds `Done` or `Error` messages,
never `Asked`, so the receiver's catch-all branch is unreachable for
channel messages, and a successful outcome leaves the recorded failure list
unchanged. -/
theorem handler_status_done_or_error (p : String) (r : Except GError Unit)
    (fs : List Msg) (u : Unit) :
    (mount_handled_cb p r).status ≠ MountStatus.Asked
    ∧ ((mount_handled_cb p r).status = MountStatus.Done
        ∨ ∃ e, (mount_handled_cb p r).status = MountStatus.Error e)
    ∧ recordMsg fs (mount_handled_cb p (Except.ok u)) = fs := by
  refine ⟨?_, ?_, rfl⟩ <;> cases r <;> simp [mount_handled_cb]

end AdsysMount
